import Mathlib

/-!
Verification of `src/streamlit_app.py` (Redline AI lease-analysis app).

The Python program is shallowly embedded: external collaborators (the
inference service, the `json` library, the quota record store) are modelled
as an explicit environment, and each side effect the program performs is
recorded as an event in a trace.  Machine behaviour that the program itself
implements (the retry loop, fence stripping, the quota-gate decision, the
report rows, the usage increment) is translated statement by statement from
the source.
-/

/-- JSON values as handed back by the `json` library (`json.loads`). -/
inductive Json where
  | null
  | bool (b : Bool)
  | int (n : Int)
  | str (s : String)
  | arr (xs : List Json)
  | obj (fields : List (String × Json))
deriving Repr

/-- Python truthiness of a decoded JSON value, as tested by `if not data`. -/
def Json.truthy : Json → Bool
  | Json.null => false
  | Json.bool b => b
  | Json.int n => n != 0
  | Json.str s => s != ""
  | Json.arr xs => !xs.isEmpty
  | Json.obj fs => !fs.isEmpty

mutual
/-- Python `repr` of a decoded JSON value (used by `str` on containers). -/
def Json.pyRepr : Json → String
  | Json.null => "None"
  | Json.bool true => "True"
  | Json.bool false => "False"
  | Json.int n => toString n
  | Json.str s => "\x27" ++ s ++ "\x27"
  | Json.arr xs => "[" ++ Json.pyReprList xs ++ "]"
  | Json.obj fs => "\x7b" ++ Json.pyReprFields fs ++ "\x7d"

/-- Comma-separated `repr`s of a list of JSON values. -/
def Json.pyReprList : List Json → String
  | [] => ""
  | [x] => Json.pyRepr x
  | x :: y :: rest => Json.pyRepr x ++ ", " ++ Json.pyReprList (y :: rest)

/-- Comma-separated `repr`s of the fields of a JSON object. -/
def Json.pyReprFields : List (String × Json) → String
  | [] => ""
  | [(k, v)] => "\x27" ++ k ++ "\x27: " ++ Json.pyRepr v
  | (k, v) :: w :: rest =>
      "\x27" ++ k ++ "\x27: " ++ Json.pyRepr v ++ ", " ++ Json.pyReprFields (w :: rest)
end

/-- Python `str` of a decoded JSON value (as applied by `create_excel_bytes`). -/
def Json.pyStr : Json → String
  | Json.str s => s
  | v => Json.pyRepr v

/-- Observable side effects of a run, in program order. -/
inductive Ev where
  | tempWrite (name : String)
  | tempRemove (name : String)
  | upload
  | pollGet
  | sleep (n : Nat)
  | generate
  | deleteRemote
  | storeWrite (code : String)
deriving Repr, DecidableEq

/-- Outcome of one `client.models.generate_content` call (plus `json.loads`
input), as supplied by the environment for each attempt index. -/
inductive GenOutcome where
  | throttled
  | raiseErr (msg : String)
  | text (s : String)

/-- Result of `analyze_lease`: a value with its report, a raised exception
message, or non-termination of the readiness poll. -/
inductive Outcome where
  | ok (data : Json) (report : List (List String))
  | err (msg : String)
  | hang
deriving Repr

/-- Environment of one `analyze_lease` invocation: everything the external
services decide. `pollStates` is the sequence of `state.name` values returned
by successive `client.files.get` calls; `gen` gives the outcome of the
`generate_content` call on each attempt index; `loads` is `json.loads`
(`none` = raises `JSONDecodeError`). -/
structure PipeEnv where
  apiKey : Bool
  fileName : String
  uploadErr : Option String
  initState : String
  pollStates : List String
  gen : Nat → GenOutcome
  loads : String → Option Json
  sysPromptSecret : Option String

/-- Does the character list start with the given pattern? -/
def startsWithL : List Char → List Char → Bool
  | [], _ => true
  | _ :: _, [] => false
  | p :: ps, c :: cs => p = c && startsWithL ps cs

/-- Left-to-right replacement of every non-overlapping occurrence of `pat`,
with explicit fuel (one unit per input position) so the recursion is
structural. -/
def replaceGo (pat repl : List Char) : Nat → List Char → List Char
  | 0, rest => rest
  | Nat.succ fuel, l =>
    match l with
    | [] => []
    | c :: cs =>
      if startsWithL pat l then repl ++ replaceGo pat repl fuel (List.drop pat.length l)
      else c :: replaceGo pat repl fuel cs

/-- Python `str.replace`: replace every occurrence of `pat` by `repl`. -/
def pyReplace (s pat repl : String) : String :=
  ⟨replaceGo pat.data repl.data s.data.length s.data⟩

/-- Drop leading whitespace characters. -/
def trimLeftL : List Char → List Char
  | [] => []
  | c :: cs => if c.isWhitespace then trimLeftL cs else c :: cs

/-- Python `str.strip()`: drop whitespace from both ends. -/
def pyTrim (s : String) : String :=
  ⟨(trimLeftL ((trimLeftL s.data).reverse)).reverse⟩

/-- Python `str.upper()`. -/
def pyToUpper (s : String) : String := ⟨s.data.map Char.toUpper⟩

/-- Accumulate decimal digits; `none` on the first non-digit. -/
def digitsToNatGo (acc : Nat) : List Char → Option Nat
  | [] => some acc
  | c :: cs => if c.isDigit then digitsToNatGo (acc * 10 + (c.toNat - 48)) cs else none

/-- Parse a non-empty all-digit character list as a natural number. -/
def pyToNat : List Char → Option Nat
  | [] => none
  | l => digitsToNatGo 0 l

/-- Line 194: `response.text.replace("```json", "").replace("```", "").strip()`. -/
def stripFences (s : String) : String :=
  pyTrim (pyReplace (pyReplace s "```json" "") "```" "")

/-- Lines 173-175: `while cloud_file.state.name == "PROCESSING": sleep(1); get`.
Returns the emitted events and the first non-PROCESSING state, or `none` when
the supplied state sequence never leaves PROCESSING (the loop is still
running). -/
def pollLoop : String → List String → List Ev × Option String
  | st, states =>
    if st = "PROCESSING" then
      match states with
      | [] => ([], none)
      | s :: rest =>
        let r := pollLoop s rest
        (Ev.sleep 1 :: Ev.pollGet :: r.1, r.2)
    else ([], some st)

/-- Line 185: `max_retries = 3`. -/
def max_retries : Nat := 3

/-- Lines 188-201: the `for attempt in range(max_retries)` body.  The list
argument is the remaining attempt indices; `attempt == max_retries - 1`
corresponds to the tail being empty.  Returns the emitted events and either
`ok data` (the Python local `data`, still `none` when the loop finished with
no successful parse) or `error m` (the loop re-raised exception `m`). -/
def runAttempts (env : PipeEnv) : List Nat → List Ev × Except String (Option Json)
  | [] => ([], Except.ok none)
  | i :: rest =>
    match env.gen i with
    | GenOutcome.text s =>
      match env.loads (stripFences s) with
      | some j => ([Ev.generate], Except.ok (some j))
      | none =>
        if rest = [] then ([Ev.generate], Except.error "JSONDecodeError")
        else
          let r := runAttempts env rest
          (Ev.generate :: Ev.sleep 1 :: r.1, r.2)
    | GenOutcome.throttled =>
      let r := runAttempts env rest
      (Ev.generate :: Ev.sleep 5 :: r.1, r.2)
    | GenOutcome.raiseErr m =>
      if rest = [] then ([Ev.generate], Except.error m)
      else
        let r := runAttempts env rest
        (Ev.generate :: Ev.sleep 1 :: r.1, r.2)

/-- `dict.get(key, default)` on a decoded JSON object. -/
def jsonGet (m : List (String × Json)) (k : String) (dflt : Json) : Json :=
  match m.lookup k with
  | some v => v
  | none => dflt

/-- Lines 109-160: `create_excel_bytes`, modelled as the grid of cell values
appended to the worksheet (styling and byte serialisation are the
a concern of the spreadsheet library and carry no data). -/
def create_excel_bytes (filename : String) (data : List (String × Json)) :
    List (List String) :=
  let headers := ["Tenant", "Rent Breakdown", "Deposit", "Risk Score", "Risk Summary"]
  let raw_flags := jsonGet data "risk_flags" (Json.str "None")
  let risk_flags_str :=
    match raw_flags with
    | Json.arr xs => String.intercalate ", " (xs.map Json.pyStr)
    | v => Json.pyStr v
  [headers,
   [Json.pyStr (jsonGet data "tenant_name" (Json.str "N/A")),
    Json.pyStr (jsonGet data "monthly_rent" (Json.str "N/A")),
    Json.pyStr (jsonGet data "security_deposit" (Json.str "N/A")),
    Json.pyStr (jsonGet data "risk_score" (Json.str "0")),
    risk_flags_str],
   [],
   ["NOTE: AI-Generated Draft. Verify with original document."]]

/-- Lines 207-208: `if not data: raise ...; return data, create_excel_bytes(...)`.
A non-dict truthy value would hit `data.get` inside `create_excel_bytes` and
raise `AttributeError`. -/
def deliver (env : PipeEnv) (dataOpt : Option Json) : Outcome :=
  match dataOpt with
  | none => Outcome.err "AI could not extract data."
  | some j =>
    if j.truthy = false then Outcome.err "AI could not extract data."
    else
      match j with
      | Json.obj fs => Outcome.ok j (create_excel_bytes env.fileName fs)
      | _ => Outcome.err "AttributeError"

/-- Lines 188-208: the retry loop followed by the remote delete (lines
202-205) and the final data check.  The delete is executed only when the
`for` loop terminates without raising; a re-raised exception from the loop
body propagates past it. -/
def extractAndCleanup (env : PipeEnv) : List Ev × Outcome :=
  let ar := runAttempts env (List.range max_retries)
  match ar.2 with
  | Except.error m => (ar.1, Outcome.err m)
  | Except.ok dataOpt => (ar.1 ++ [Ev.deleteRemote], deliver env dataOpt)

/-- Lines 162-208: `analyze_lease`.  Checks the API key, stages the bytes to
`temp_upload.pdf`, uploads, polls readiness, raises `PDF Syntax Error` on a
FAILED state, then runs the extraction/cleanup phase.  No event ever removes
the staged local file because the source never does. -/
def analyze_lease (env : PipeEnv) : List Ev × Outcome :=
  if env.apiKey = false then ([], Outcome.err "API Key Missing")
  else
    let pre := [Ev.tempWrite "temp_upload.pdf", Ev.upload]
    match env.uploadErr with
    | some m => (pre, Outcome.err m)
    | none =>
      let pr := pollLoop env.initState env.pollStates
      match pr.2 with
      | none => (pre ++ pr.1, Outcome.hang)
      | some st =>
        if st = "FAILED" then (pre ++ pr.1, Outcome.err "PDF Syntax Error")
        else
          let er := extractAndCleanup env
          (pre ++ pr.1 ++ er.1, er.2)

/-- A spreadsheet cell value as returned by `get_all_records` / `cell().value`:
either a number or a string. -/
inductive Cell where
  | intV (n : Int)
  | strV (s : String)
deriving Repr, DecidableEq

/-- Python `str` of a cell value. -/
def pyStrCell : Cell → String
  | Cell.intV n => toString n
  | Cell.strV s => s

/-- Python `int(...)` applied to a cell value (`none` = raises `ValueError`). -/
def pyIntCell : Cell → Option Int
  | Cell.intV n => some n
  | Cell.strV s =>
    match (pyTrim s).data with
    | '-' :: rest => (pyToNat rest).map (fun n => -(n : Int))
    | '+' :: rest => (pyToNat rest).map (fun n => (n : Int))
    | t => (pyToNat t).map (fun n => (n : Int))

/-- One record of `sheet.get_all_records()`: column name to cell value.
Keys may be missing and values may fail integer conversion. -/
abbrev SheetRecord := List (String × Cell)

/-- The quota record store as seen by one call: whether `connect_to_sheet`
succeeded (it returns `None` on any exception), and the result of
`get_all_records` (`error` = the fetch itself raised). -/
structure StoreEnv where
  connected : Bool
  fetch : Except String (List SheetRecord)

/-- Lines 79-88: the record scan inside `check_access`.  Missing keys raise
`KeyError` and non-integer `used`/`limit` raise `ValueError`; both escape to
the enclosing handler. -/
def checkLoop (code : String) : List SheetRecord →
    Except String (String × Option Int × Option Int)
  | [] => Except.ok ("❌ Invalid Code", none, none)
  | r :: rest =>
    match r.lookup "username" with
    | none => Except.error "KeyError"
    | some u =>
      if pyStrCell u = code then
        match r.lookup "active" with
        | none => Except.error "KeyError"
        | some a =>
          if pyToUpper (pyStrCell a) ≠ "TRUE" then
            Except.ok ("❌ Deactivated", none, none)
          else
            match r.lookup "used" with
            | none => Except.error "KeyError"
            | some uc =>
              match pyIntCell uc with
              | none => Except.error "ValueError"
              | some used =>
                match r.lookup "limit" with
                | none => Except.error "KeyError"
                | some lc =>
                  match pyIntCell lc with
                  | none => Except.error "ValueError"
                  | some lim =>
                    if used ≥ lim then
                      Except.ok ("⚠️ Limit Reached (" ++ toString used ++ "/" ++
                        toString lim ++ ")", some used, some lim)
                    else Except.ok ("OK", some used, some lim)
      else checkLoop code rest

/-- Lines 74-90: `check_access`.  A `None` sheet yields the Database Error
status; any exception inside the `try` yields the System Error status. -/
def check_access (env : StoreEnv) (code : String) :
    String × Option Int × Option Int :=
  if env.connected = false then ("⚠️ Database Error", none, none)
  else
    match env.fetch with
    | Except.error _ => ("⚠️ System Error", none, none)
    | Except.ok records =>
      match checkLoop code records with
      | Except.ok r => r
      | Except.error _ => ("⚠️ System Error", none, none)

/-- The usage column of the sheet as acted on by `increment_usage`:
username paired with the column-2 (`used`) cell. -/
abbrev UsageRows := List (String × Cell)

/-- Lines 95-97: `find(code)`, read the `used` cell, write back `+ 1`.
`none` when any of those steps raises (cell not found, non-integer value);
the enclosing `except: pass` then leaves the sheet unchanged. -/
def incRows (code : String) : UsageRows → Option UsageRows
  | [] => none
  | r :: rest =>
    if r.1 = code then
      match pyIntCell r.2 with
      | some n => some ((r.1, Cell.intV (n + 1)) :: rest)
      | none => none
    else (incRows code rest).map (r :: ·)

/-- Lines 92-99: `increment_usage`.  Best-effort: every failure is swallowed
by `except: pass` and the rows are returned unchanged. -/
def increment_usage (connected : Bool) (rows : UsageRows) (code : String) :
    UsageRows × List Ev :=
  if connected = false then (rows, [])
  else
    match incRows code rows with
    | some rows2 => (rows2, [Ev.storeWrite code])
    | none => (rows, [])

/-- The `used` cell currently recorded for `code` (first matching row). -/
def usedOf (rows : UsageRows) (code : String) : Option Cell :=
  (rows.find? (fun r => r.1 = code)).map (fun r => r.2)

/-- One interactive round of the front-end (lines 214-264): the sidebar
inputs, the legal gate, and the run button. -/
structure UiEnv where
  store : StoreEnv
  pipe : PipeEnv
  password : String
  legalAccepted : Bool
  fileUploaded : Bool
  runClicked : Bool

/-- Lines 218-264: the module-level flow.  `check_access` runs only for a
non-empty password; the pipeline runs only when the status is "OK", the
terms are accepted, a file is uploaded and the run button is pressed;
`increment_usage` runs only after a successful `analyze_lease`.  Returns the
event trace and the resulting usage rows of the record store. -/
def uiFlow (env : UiEnv) (rows : UsageRows) : List Ev × UsageRows :=
  let status := if env.password ≠ "" then (check_access env.store env.password).1
                else "WAITING"
  if env.password ≠ "" ∧ status = "OK" then
    if env.legalAccepted = false then ([], rows)
    else if env.fileUploaded ∧ env.runClicked then
      let pr := analyze_lease env.pipe
      match pr.2 with
      | Outcome.ok _ _ =>
        let ir := increment_usage env.store.connected rows env.password
        (pr.1 ++ ir.2, ir.1)
      | Outcome.err _ => (pr.1, rows)
      | Outcome.hang => (pr.1, rows)
    else ([], rows)
  else ([], rows)

/-- Event classifier: is this a write to the quota record store? -/
def isStoreWrite : Ev → Bool
  | Ev.storeWrite _ => true
  | _ => false

/-- Event classifier: is this a removal of the transient local artifact? -/
def isTempRemove : Ev → Bool
  | Ev.tempRemove _ => true
  | _ => false

/-- An account of the data model in the spec: identifier, active flag, usage
count, usage limit. -/
abbrev Account := String × Bool × Int × Int

/-- A well-formed sheet record for an account, with the four columns
`check_access` reads. -/
def mkAccount (a : Account) : SheetRecord :=
  [("username", Cell.strV a.1),
   ("active", Cell.strV (if a.2.1 then "TRUE" else "FALSE")),
   ("used", Cell.intV a.2.2.1),
   ("limit", Cell.intV a.2.2.2)]

/-- First account whose identifier equals `code` (the record store is
scanned linearly by key). -/
def findAcct (code : String) : List Account → Option Account
  | [] => none
  | a :: rest => if a.1 = code then some a else findAcct code rest

/-- Modelled from the spec (§4.1): the QuotaGate decision table — NotFound
when absent, Deactivated when the active flag is false, LimitReached when
used ≥ limit, otherwise Allowed with the pair (used, limit) — expressed with
the concrete status strings the program uses for those outcomes. -/
def quotaGateSpec (accts : List Account) (code : String) :
    String × Option Int × Option Int :=
  match findAcct code accts with
  | none => ("❌ Invalid Code", none, none)
  | some a =>
    if a.2.1 = false then ("❌ Deactivated", none, none)
    else if a.2.2.1 ≥ a.2.2.2 then
      ("⚠️ Limit Reached (" ++ toString a.2.2.1 ++ "/" ++ toString a.2.2.2 ++ ")",
       some a.2.2.1, some a.2.2.2)
    else ("OK", some a.2.2.1, some a.2.2.2)

/-- Whether the attempt at index `i` sets `data` (model call returned text
that `json.loads` accepts). -/
def attemptOk (env : PipeEnv) (i : Nat) : Bool :=
  match env.gen i with
  | GenOutcome.text s => (env.loads (stripFences s)).isSome
  | _ => false

/-- A non-throttle failure of the attempt at index `i`: the model call
raised, or it returned text that `json.loads` rejects (both land in the
generic `except Exception` branch of the loop body). -/
def attemptFails (env : PipeEnv) (i : Nat) : Prop :=
  (∃ m, env.gen i = GenOutcome.raiseErr m) ∨
  (∃ s, env.gen i = GenOutcome.text s ∧ env.loads (stripFences s) = none)

/-- The possible return shapes of `check_access`: one of its fixed status
strings, or a Limit Reached / OK status carrying the usage pair. -/
def validStatus (r : String × Option Int × Option Int) : Prop :=
  r = ("⚠️ Database Error", none, none) ∨
  r = ("⚠️ System Error", none, none) ∨
  r = ("❌ Invalid Code", none, none) ∨
  r = ("❌ Deactivated", none, none) ∨
  (∃ u l, r = ("OK", some u, some l)) ∨
  (∃ u l, r = ("⚠️ Limit Reached (" ++ toString u ++ "/" ++ toString l ++ ")",
               some u, some l))

/-- Fields of the sample extraction payload used in concrete runs. -/
def demoFields : List (String × Json) := [("risk_score", Json.int 5)]

/-- The sample model response text. -/
def demoPayload : String := "\x7b\"risk_score\":5\x7d"

/-- A concrete `json.loads` behaviour: accepts the sample payload and the
empty object, rejects everything else. -/
def loadsDemo : String → Option Json := fun s =>
  if s = demoPayload then some (Json.obj demoFields)
  else if s = "\x7b\x7d" then some (Json.obj []) else none

/-- Run in which every model call is throttled. -/
def envThrottle : PipeEnv :=
  ⟨true, "lease.pdf", none, "ACTIVE", [], fun _ => GenOutcome.throttled, loadsDemo, none⟩

/-- Run in which the uploaded document is reported FAILED. -/
def envFailedState : PipeEnv :=
  ⟨true, "lease.pdf", none, "FAILED", [], fun _ => GenOutcome.throttled, loadsDemo, none⟩

/-- Run in which the first model call returns the sample payload. -/
def envFirstTryOk : PipeEnv :=
  ⟨true, "lease.pdf", none, "ACTIVE", [], fun _ => GenOutcome.text demoPayload,
   loadsDemo, none⟩

/-- Run in which the model returns the empty JSON object. -/
def envEmptyObj : PipeEnv :=
  ⟨true, "lease.pdf", none, "ACTIVE", [], fun _ => GenOutcome.text "\x7b\x7d",
   loadsDemo, none⟩

/-- Run in which the first attempt raises a non-throttle error and the second
attempt succeeds. -/
def envRetryThenOk : PipeEnv :=
  ⟨true, "lease.pdf", none, "ACTIVE", [],
   fun i => if i = 0 then GenOutcome.raiseErr "boom" else GenOutcome.text demoPayload,
   loadsDemo, none⟩

/-- Run in which every attempt raises a non-throttle error named after its
index. -/
def envAllRaise : PipeEnv :=
  ⟨true, "lease.pdf", none, "ACTIVE", [],
   fun i => GenOutcome.raiseErr (toString i), loadsDemo, none⟩

/-- Run in which the inference-service credential is missing. -/
def envNoKey : PipeEnv :=
  ⟨false, "lease.pdf", none, "ACTIVE", [], fun _ => GenOutcome.throttled, loadsDemo, none⟩

/-- Record store whose connection attempt fails. -/
def storeDown : StoreEnv := ⟨false, Except.ok []⟩

/-- Record store with one active account DEMO at 2 of 3 uses. -/
def storeUp : StoreEnv := ⟨true, Except.ok [mkAccount ("DEMO", true, 2, 3)]⟩

/-- Usage rows with DEMO at 2 uses. -/
def rowsDemo : UsageRows := [("DEMO", Cell.intV 2)]

/-- Interactive round for DEMO against an unreachable store. -/
def uiDenied : UiEnv := ⟨storeDown, envFirstTryOk, "DEMO", true, true, true⟩

/-- Interactive round for DEMO whose pipeline run fails (missing credential). -/
def uiFailedRun : UiEnv := ⟨storeUp, envNoKey, "DEMO", true, true, true⟩

/-- Interactive round for DEMO whose pipeline run succeeds first try. -/
def uiOkRun : UiEnv := ⟨storeUp, envFirstTryOk, "DEMO", true, true, true⟩

/-- Cell `j` of row `i` of an encoded report. -/
def cellAt (rows : List (List String)) (i j : Nat) : Option String :=
  (rows.get? i).bind fun r => r.get? j

theorem mem_pollLoop {e : Ev} :
    ∀ (states : List String) (st : String), e ∈ (pollLoop st states).1 →
    e = Ev.sleep 1 ∨ e = Ev.pollGet := by
  intro states
  induction states with
  | nil =>
    intro st h
    simp only [pollLoop] at h
    split at h <;> simp at h
  | cons s rest ih =>
    intro st h
    simp only [pollLoop] at h
    split at h
    · simp only [List.mem_cons] at h
      rcases h with rfl | rfl | h
      · exact Or.inl rfl
      · exact Or.inr rfl
      · exact ih s h
    · simp at h

theorem mem_runAttempts {env : PipeEnv} {e : Ev} :
    ∀ l : List Nat, e ∈ (runAttempts env l).1 →
    e = Ev.generate ∨ ∃ d, e = Ev.sleep d := by
  intro l
  induction l with
  | nil => intro h; simp [runAttempts] at h
  | cons i rest ih =>
    intro h
    simp only [runAttempts] at h
    split at h
    · split at h
      · simp at h; exact Or.inl h
      · split at h
        · simp at h; exact Or.inl h
        · simp only [List.mem_cons] at h
          rcases h with rfl | rfl | h
          · exact Or.inl rfl
          · exact Or.inr ⟨1, rfl⟩
          · exact ih h
    · simp only [List.mem_cons] at h
      rcases h with rfl | rfl | h
      · exact Or.inl rfl
      · exact Or.inr ⟨5, rfl⟩
      · exact ih h
    · split at h
      · simp at h; exact Or.inl h
      · simp only [List.mem_cons] at h
        rcases h with rfl | rfl | h
        · exact Or.inl rfl
        · exact Or.inr ⟨1, rfl⟩
        · exact ih h

theorem mem_analyze_lease {env : PipeEnv} {e : Ev}
    (h : e ∈ (analyze_lease env).1) :
    e = Ev.tempWrite "temp_upload.pdf" ∨ e = Ev.upload ∨ e = Ev.pollGet ∨
    (∃ d, e = Ev.sleep d) ∨ e = Ev.generate ∨ e = Ev.deleteRemote := by
  simp only [analyze_lease] at h
  split at h
  · simp at h
  · split at h
    · simp only [List.mem_cons] at h
      rcases h with rfl | rfl | h
      · exact Or.inl rfl
      · exact Or.inr (Or.inl rfl)
      · simp at h
    · split at h
      · simp only [List.mem_append, List.mem_cons] at h
        rcases h with (rfl | rfl | h) | h
        · exact Or.inl rfl
        · exact Or.inr (Or.inl rfl)
        · simp at h
        · rcases mem_pollLoop _ _ h with rfl | rfl
          · exact Or.inr (Or.inr (Or.inr (Or.inl ⟨1, rfl⟩)))
          · exact Or.inr (Or.inr (Or.inl rfl))
      · split at h
        · simp only [List.mem_append, List.mem_cons] at h
          rcases h with (rfl | rfl | h) | h
          · exact Or.inl rfl
          · exact Or.inr (Or.inl rfl)
          · simp at h
          · rcases mem_pollLoop _ _ h with rfl | rfl
            · exact Or.inr (Or.inr (Or.inr (Or.inl ⟨1, rfl⟩)))
            · exact Or.inr (Or.inr (Or.inl rfl))
        · simp only [List.mem_append, List.mem_cons] at h
          rcases h with ((rfl | rfl | h) | h) | h
          · exact Or.inl rfl
          · exact Or.inr (Or.inl rfl)
          · simp at h
          · rcases mem_pollLoop _ _ h with rfl | rfl
            · exact Or.inr (Or.inr (Or.inr (Or.inl ⟨1, rfl⟩)))
            · exact Or.inr (Or.inr (Or.inl rfl))
          · simp only [extractAndCleanup] at h
            split at h
            · rcases mem_runAttempts _ h with rfl | ⟨d, rfl⟩
              · exact Or.inr (Or.inr (Or.inr (Or.inr (Or.inl rfl))))
              · exact Or.inr (Or.inr (Or.inr (Or.inl ⟨d, rfl⟩)))
            · simp only [List.mem_append, List.mem_cons] at h
              rcases h with h | rfl | h
              · rcases mem_runAttempts _ h with rfl | ⟨d, rfl⟩
                · exact Or.inr (Or.inr (Or.inr (Or.inr (Or.inl rfl))))
                · exact Or.inr (Or.inr (Or.inr (Or.inl ⟨d, rfl⟩)))
              · exact Or.inr (Or.inr (Or.inr (Or.inr (Or.inr rfl))))
              · simp at h

theorem analyze_lease_reach {env : PipeEnv} {st : String}
    (hA : env.apiKey = true) (hU : env.uploadErr = none)
    (hP : (pollLoop env.initState env.pollStates).2 = some st)
    (hF : st ≠ "FAILED") :
    analyze_lease env =
      ([Ev.tempWrite "temp_upload.pdf", Ev.upload] ++
        (pollLoop env.initState env.pollStates).1 ++ (extractAndCleanup env).1,
       (extractAndCleanup env).2) := by
  simp [analyze_lease, hA, hU, hP, hF]

theorem runAttempts_skip {env : PipeEnv} (i : Nat) (rest : List Nat)
    (hok : attemptOk env i = false) (hne : rest ≠ []) :
    ∃ d, runAttempts env (i :: rest) =
      (Ev.generate :: Ev.sleep d :: (runAttempts env rest).1,
       (runAttempts env rest).2) := by
  cases hg : env.gen i with
  | text s =>
    cases hl : env.loads (stripFences s) with
    | some j => simp [attemptOk, hg, hl] at hok
    | none => exact ⟨1, by simp [runAttempts, hg, hl, hne]⟩
  | throttled => exact ⟨5, by simp [runAttempts, hg]⟩
  | raiseErr m => exact ⟨1, by simp [runAttempts, hg, hne]⟩

theorem runAttempts_hit {env : PipeEnv} {i : Nat} {s : String} {j : Json}
    (rest : List Nat) (hg : env.gen i = GenOutcome.text s)
    (hl : env.loads (stripFences s) = some j) :
    runAttempts env (i :: rest) = ([Ev.generate], Except.ok (some j)) := by
  simp [runAttempts, hg, hl]

theorem runAttempts_lastRaise {env : PipeEnv} {i : Nat} {m : String}
    (hg : env.gen i = GenOutcome.raiseErr m) :
    runAttempts env [i] = ([Ev.generate], Except.error m) := by
  simp [runAttempts, hg]

theorem runAttempts_skip_fail (env : PipeEnv) (i : Nat) (rest : List Nat)
    (hne : rest ≠ []) (hf : attemptFails env i) :
    runAttempts env (i :: rest) =
      (Ev.generate :: Ev.sleep 1 :: (runAttempts env rest).1,
       (runAttempts env rest).2) := by
  rcases hf with ⟨m, hg⟩ | ⟨s, hg, hl⟩
  · simp [runAttempts, hg, hne]
  · simp [runAttempts, hg, hl, hne]

theorem analyze_no_storeWrite (env : PipeEnv) :
    (analyze_lease env).1.filter isStoreWrite = [] := by
  rw [List.filter_eq_nil_iff]
  intro e he
  rcases mem_analyze_lease he with rfl | rfl | rfl | ⟨d, rfl⟩ | rfl | rfl <;>
    simp [isStoreWrite]

theorem analyze_no_tempRemove (env : PipeEnv) :
    (analyze_lease env).1.filter isTempRemove = [] := by
  rw [List.filter_eq_nil_iff]
  intro e he
  rcases mem_analyze_lease he with rfl | rfl | rfl | ⟨d, rfl⟩ | rfl | rfl <;>
    simp [isTempRemove]

theorem pollLoop_count_delete (st : String) (states : List String) :
    (pollLoop st states).1.count Ev.deleteRemote = 0 := by
  rw [List.count_eq_zero]
  intro hmem
  rcases mem_pollLoop _ _ hmem with h | h <;> simp at h

theorem runAttempts_count_delete (env : PipeEnv) (l : List Nat) :
    (runAttempts env l).1.count Ev.deleteRemote = 0 := by
  rw [List.count_eq_zero]
  intro hmem
  rcases mem_runAttempts _ hmem with h | ⟨d, h⟩ <;> simp at h

theorem checkLoop_mkAccounts (code : String) :
    ∀ accts : List Account,
    checkLoop code (accts.map mkAccount) = Except.ok (quotaGateSpec accts code) := by
  intro accts
  induction accts with
  | nil => simp [checkLoop, quotaGateSpec, findAcct]
  | cons a rest ih =>
    obtain ⟨name, act, u, l⟩ := a
    by_cases hc : name = code
    · subst hc
      cases act with
      | false =>
        have hu : (mkAccount (name, false, u, l)).lookup "username" =
            some (Cell.strV name) := rfl
        have ha : (mkAccount (name, false, u, l)).lookup "active" =
            some (Cell.strV "FALSE") := rfl
        have hup : pyToUpper "FALSE" = "FALSE" := by decide
        have hne : ("FALSE" : String) ≠ "TRUE" := by decide
        simp [checkLoop, hu, ha, pyStrCell, quotaGateSpec, findAcct, hup, hne]
      | true =>
        have hu : (mkAccount (name, true, u, l)).lookup "username" =
            some (Cell.strV name) := rfl
        have ha : (mkAccount (name, true, u, l)).lookup "active" =
            some (Cell.strV "TRUE") := rfl
        have hus : (mkAccount (name, true, u, l)).lookup "used" =
            some (Cell.intV u) := rfl
        have hl : (mkAccount (name, true, u, l)).lookup "limit" =
            some (Cell.intV l) := rfl
        have hup : pyToUpper "TRUE" = "TRUE" := by decide
        by_cases hul : u ≥ l
        · simp [checkLoop, hu, ha, hus, hl, pyStrCell, pyIntCell,
            quotaGateSpec, findAcct, hup, hul]
        · simp [checkLoop, hu, ha, hus, hl, pyStrCell, pyIntCell,
            quotaGateSpec, findAcct, hup, hul]
    · have hu : (mkAccount (name, act, u, l)).lookup "username" =
          some (Cell.strV name) := rfl
      simp [checkLoop, hu, pyStrCell, hc, quotaGateSpec, findAcct, ih]

theorem checkLoop_ok_valid (code : String) :
    ∀ (records : List SheetRecord) (r : String × Option Int × Option Int),
    checkLoop code records = Except.ok r → validStatus r := by
  intro records
  induction records with
  | nil =>
    intro r h
    simp only [checkLoop, Except.ok.injEq] at h
    subst h
    exact Or.inr (Or.inr (Or.inl rfl))
  | cons rec rest ih =>
    intro r h
    simp only [checkLoop] at h
    split at h
    · simp at h
    · split at h
      · split at h
        · simp at h
        · split at h
          · simp only [Except.ok.injEq] at h
            subst h
            exact Or.inr (Or.inr (Or.inr (Or.inl rfl)))
          · split at h
            · simp at h
            · split at h
              · simp at h
              · split at h
                · simp at h
                · split at h
                  · simp at h
                  · split at h
                    · simp only [Except.ok.injEq] at h
                      subst h
                      refine Or.inr (Or.inr (Or.inr (Or.inr (Or.inr ⟨_, _, rfl⟩))))
                    · simp only [Except.ok.injEq] at h
                      subst h
                      exact Or.inr (Or.inr (Or.inr (Or.inr (Or.inl ⟨_, _, rfl⟩))))
      · exact ih r h

theorem usedOf_cons_pos {r : String × Cell} {rest : UsageRows} {code : String}
    (hc : r.1 = code) : usedOf (r :: rest) code = some r.2 := by
  unfold usedOf
  rw [List.find?_cons_of_pos _ (by simp [hc])]
  rfl

theorem usedOf_cons_neg {r : String × Cell} {rest : UsageRows} {code : String}
    (hc : ¬r.1 = code) : usedOf (r :: rest) code = usedOf rest code := by
  unfold usedOf
  rw [List.find?_cons_of_neg _ (by simp [hc])]

theorem incRows_spec (code : String) :
    ∀ (rows rows2 : UsageRows), incRows code rows = some rows2 →
    ∃ c n, usedOf rows code = some c ∧ pyIntCell c = some n ∧
      usedOf rows2 code = some (Cell.intV (n + 1)) := by
  intro rows
  induction rows with
  | nil => intro rows2 h; simp [incRows] at h
  | cons r rest ih =>
    intro rows2 h
    simp only [incRows] at h
    by_cases hc : r.1 = code
    · rw [if_pos hc] at h
      cases hp : pyIntCell r.2 with
      | none => rw [hp] at h; simp at h
      | some n =>
        rw [hp] at h
        simp only [Option.some.injEq] at h
        subst h
        exact ⟨r.2, n, usedOf_cons_pos hc, hp, usedOf_cons_pos hc⟩
    · rw [if_neg hc] at h
      cases hrec : incRows code rest with
      | none => rw [hrec] at h; simp at h
      | some rs2 =>
        rw [hrec] at h
        simp only [Option.map_some', Option.some.injEq] at h
        subst h
        obtain ⟨c, n, h1, h2, h3⟩ := ih rs2 hrec
        exact ⟨c, n, (usedOf_cons_neg hc).trans h1, h2,
          (usedOf_cons_neg hc).trans h3⟩

/-- Claim C3: for every client identifier, `check_access` decides exactly as
the QuotaGate contract: NotFound (Invalid Code) when the identifier is absent,
Deactivated when the active flag is false regardless of counts, LimitReached
when used ≥ limit, and otherwise Allowed (OK) with the pair (used, limit) —
in particular used = limit - 1 is allowed. -/
theorem C3_quota_gate_decision (accts : List Account) (code : String) :
    check_access ⟨true, Except.ok (accts.map mkAccount)⟩ code =
      quotaGateSpec accts code := by
  simp [check_access, checkLoop_mkAccounts]

/-- Claim C10: `check_access` is total at its interface — for every store
condition (unreachable store, fetch failure, records with missing keys or
non-integer cells) it returns one of its status shapes and never propagates
an exception — and the unreachable-store outcome is distinct from the
unknown-client outcome. -/
theorem C10_check_access_total :
    (∀ (env : StoreEnv) (code : String), validStatus (check_access env code)) ∧
    (∀ (fetch : Except String (List SheetRecord)) (code : String),
      check_access ⟨false, fetch⟩ code = ("⚠️ Database Error", none, none)) ∧
    ("⚠️ Database Error" : String) ≠ "❌ Invalid Code" := by
  refine ⟨?_, fun fetch code => rfl, by decide⟩
  intro env code
  unfold check_access
  split
  · exact Or.inl rfl
  · split
    · exact Or.inr (Or.inl rfl)
    · rename_i records heq
      cases hcl : checkLoop code records with
      | error e => exact Or.inr (Or.inl rfl)
      | ok r => exact checkLoop_ok_valid code records r hcl

/-- Claim C9: `create_excel_bytes` never raises on missing fields — for every
input mapping it yields the header row and one data row, substituting the
default placeholder for each absent field, and a list-valued risk-flags cell
is the elements joined with a comma and space. -/
theorem C9_report_encoder (fn : String) (m : List (String × Json)) :
    (create_excel_bytes fn m).length = 4 ∧
    (create_excel_bytes fn m).head? =
      some ["Tenant", "Rent Breakdown", "Deposit", "Risk Score", "Risk Summary"] ∧
    (m.lookup "tenant_name" = none →
      cellAt (create_excel_bytes fn m) 1 0 = some "N/A") ∧
    (m.lookup "monthly_rent" = none →
      cellAt (create_excel_bytes fn m) 1 1 = some "N/A") ∧
    (m.lookup "security_deposit" = none →
      cellAt (create_excel_bytes fn m) 1 2 = some "N/A") ∧
    (m.lookup "risk_score" = none →
      cellAt (create_excel_bytes fn m) 1 3 = some "0") ∧
    (m.lookup "risk_flags" = none →
      cellAt (create_excel_bytes fn m) 1 4 = some "None") ∧
    (∀ xs, m.lookup "risk_flags" = some (Json.arr xs) →
      cellAt (create_excel_bytes fn m) 1 4 =
        some (String.intercalate ", " (xs.map Json.pyStr))) ∧
    create_excel_bytes fn [] =
      [["Tenant", "Rent Breakdown", "Deposit", "Risk Score", "Risk Summary"],
       ["N/A", "N/A", "N/A", "0", "None"], [],
       ["NOTE: AI-Generated Draft. Verify with original document."]] := by
  refine ⟨rfl, rfl, ?_, ?_, ?_, ?_, ?_, ?_, rfl⟩
  · intro h; simp [create_excel_bytes, jsonGet, cellAt, h, Json.pyStr]
  · intro h; simp [create_excel_bytes, jsonGet, cellAt, h, Json.pyStr]
  · intro h; simp [create_excel_bytes, jsonGet, cellAt, h, Json.pyStr]
  · intro h; simp [create_excel_bytes, jsonGet, cellAt, h, Json.pyStr]
  · intro h; simp [create_excel_bytes, jsonGet, cellAt, h, Json.pyStr]
  · intro xs h; simp [create_excel_bytes, jsonGet, cellAt, h]

/-- Witness for C9 at a concrete mapping with a list-valued risk-flags field
and all other fields absent. -/
theorem C9_witness :
    cellAt (create_excel_bytes "x.pdf"
      [("risk_flags", Json.arr [Json.str "A", Json.str "B"])]) 1 0 = some "N/A" ∧
    cellAt (create_excel_bytes "x.pdf"
      [("risk_flags", Json.arr [Json.str "A", Json.str "B"])]) 1 4 = some "A, B" := by
  have h := C9_report_encoder "x.pdf"
    [("risk_flags", Json.arr [Json.str "A", Json.str "B"])]
  refine ⟨h.2.2.1 rfl, ?_⟩
  have h2 := h.2.2.2.2.2.2.2.1 [Json.str "A", Json.str "B"] rfl
  exact h2.trans (by decide)

/-- Claim C1 is false as stated: a run that obtains a remote handle (the
upload event occurs) and then sees the FAILED readiness state raises before
the delete, so no remote-delete call is issued for that handle. -/
theorem C1_cex :
    Ev.upload ∈ (analyze_lease envFailedState).1 ∧
    (analyze_lease envFailedState).2 = Outcome.err "PDF Syntax Error" ∧
    (analyze_lease envFailedState).1.count Ev.deleteRemote = 0 :=
  ⟨by decide, rfl, by decide⟩

/-- Claim C1 (amended): once the run reaches the extraction loop, exactly one
remote-delete call is issued when the loop finishes without re-raising
(success, or all attempts consumed by throttling) and none when the loop
re-raises; and no delete is issued on the FAILED readiness path. -/
theorem C1_remote_delete :
    (∀ (env : PipeEnv) (st : String), env.apiKey = true → env.uploadErr = none →
      (pollLoop env.initState env.pollStates).2 = some st → st ≠ "FAILED" →
      (analyze_lease env).1.count Ev.deleteRemote =
        (match (runAttempts env (List.range max_retries)).2 with
         | Except.ok _ => 1
         | Except.error _ => 0)) ∧
    (∀ env : PipeEnv, env.apiKey = true → env.uploadErr = none →
      (pollLoop env.initState env.pollStates).2 = some "FAILED" →
      (analyze_lease env).1.count Ev.deleteRemote = 0) := by
  have hpre : ([Ev.tempWrite "temp_upload.pdf", Ev.upload] : List Ev).count
      Ev.deleteRemote = 0 := by decide
  have hone : ([Ev.deleteRemote] : List Ev).count Ev.deleteRemote = 1 := by decide
  constructor
  · intro env st hA hU hP hF
    rw [analyze_lease_reach hA hU hP hF]
    cases har : (runAttempts env (List.range max_retries)).2 with
    | ok d =>
      simp [extractAndCleanup, har, List.count_append, hpre, hone,
        pollLoop_count_delete, runAttempts_count_delete]
    | error m =>
      simp [extractAndCleanup, har, List.count_append, hpre,
        pollLoop_count_delete, runAttempts_count_delete]
  · intro env hA hU hP
    simp [analyze_lease, hA, hU, hP, List.count_append, hpre,
      pollLoop_count_delete]

/-- Witness for C1 (amended): one delete on the all-throttled run, none on
the FAILED-readiness run. -/
theorem C1_witness :
    (analyze_lease envThrottle).1.count Ev.deleteRemote = 1 ∧
    (analyze_lease envFailedState).1.count Ev.deleteRemote = 0 := by
  constructor
  · have h := C1_remote_delete.1 envThrottle "ACTIVE" rfl rfl rfl (by decide)
    exact h.trans (by decide)
  · exact C1_remote_delete.2 envFailedState rfl rfl rfl

/-- Claim C4: every throttle signal is retried under a budget of 3 total
attempts with a constant 5-unit delay (no backoff growth), and when all
attempts are consumed by throttling the run fails with the retries-exhausted
error. -/
theorem C4_throttle_retry (env : PipeEnv) (st : String)
    (hA : env.apiKey = true) (hU : env.uploadErr = none)
    (hP : (pollLoop env.initState env.pollStates).2 = some st)
    (hF : st ≠ "FAILED")
    (hT : ∀ i, i < max_retries → env.gen i = GenOutcome.throttled) :
    runAttempts env (List.range max_retries) =
      ([Ev.generate, Ev.sleep 5, Ev.generate, Ev.sleep 5, Ev.generate, Ev.sleep 5],
       Except.ok none) ∧
    (analyze_lease env).2 = Outcome.err "AI could not extract data." := by
  have h0 := hT 0 (by decide)
  have h1 := hT 1 (by decide)
  have h2 := hT 2 (by decide)
  have hr : List.range max_retries = [0, 1, 2] := by decide
  have hra : runAttempts env (List.range max_retries) =
      ([Ev.generate, Ev.sleep 5, Ev.generate, Ev.sleep 5, Ev.generate, Ev.sleep 5],
       Except.ok none) := by
    rw [hr]
    simp [runAttempts, h0, h1, h2]
  refine ⟨hra, ?_⟩
  rw [analyze_lease_reach hA hU hP hF]
  simp [extractAndCleanup, hra, deliver]

/-- Witness for C4 at the concrete all-throttled run. -/
theorem C4_witness :
    runAttempts envThrottle (List.range max_retries) =
      ([Ev.generate, Ev.sleep 5, Ev.generate, Ev.sleep 5, Ev.generate, Ev.sleep 5],
       Except.ok none) ∧
    (analyze_lease envThrottle).2 = Outcome.err "AI could not extract data." :=
  C4_throttle_retry envThrottle "ACTIVE" rfl rfl rfl (by decide) (fun i _ => rfl)

/-- Claim C5 is false as stated: a non-throttle failure on the first attempt
does not abort the run — a second attempt is made, which succeeds. -/
theorem C5_cex :
    (analyze_lease envRetryThenOk).2 =
      Outcome.ok (Json.obj demoFields) (create_excel_bytes "lease.pdf" demoFields) ∧
    (analyze_lease envRetryThenOk).1.count Ev.generate = 2 :=
  ⟨rfl, by decide⟩

/-- Claim C5 (amended): a non-throttle failure (raised exception or
unparseable response) on any but the final attempt consumes that attempt and
is retried after a constant 1-time-unit delay; only a non-throttle failure on
the final (3rd) attempt aborts the run, propagated as the error of that
attempt — exhibited by the exact trace generate, sleep 1, generate, sleep 1,
generate. -/
theorem C5_amended :
    (∀ (env : PipeEnv) (i : Nat) (rest : List Nat), rest ≠ [] →
      attemptFails env i →
      runAttempts env (i :: rest) =
        (Ev.generate :: Ev.sleep 1 :: (runAttempts env rest).1,
         (runAttempts env rest).2)) ∧
    (∀ (env : PipeEnv) (st m : String),
      env.apiKey = true → env.uploadErr = none →
      (pollLoop env.initState env.pollStates).2 = some st → st ≠ "FAILED" →
      attemptFails env 0 → attemptFails env 1 →
      env.gen 2 = GenOutcome.raiseErr m →
      (analyze_lease env).2 = Outcome.err m ∧
      runAttempts env (List.range max_retries) =
        ([Ev.generate, Ev.sleep 1, Ev.generate, Ev.sleep 1, Ev.generate],
         Except.error m)) := by
  refine ⟨runAttempts_skip_fail, ?_⟩
  intro env st m hA hU hP hF hf0 hf1 h2
  have hs0 := runAttempts_skip_fail env 0 [1, 2] (by simp) hf0
  have hs1 := runAttempts_skip_fail env 1 [2] (by simp) hf1
  have hlast := runAttempts_lastRaise h2
  have hr : List.range max_retries = [0, 1, 2] := by decide
  have hra : runAttempts env (List.range max_retries) =
      ([Ev.generate, Ev.sleep 1, Ev.generate, Ev.sleep 1, Ev.generate],
       Except.error m) := by
    rw [hr, hs0, hs1, hlast]
  refine ⟨?_, hra⟩
  rw [analyze_lease_reach hA hU hP hF]
  simp [extractAndCleanup, hra]

/-- Witness for C5 (amended): three non-throttle failures yield the trace
with the two constant 1-unit delays and propagate the error of the final
attempt. -/
theorem C5_witness :
    (analyze_lease envAllRaise).2 = Outcome.err "2" ∧
    runAttempts envAllRaise (List.range max_retries) =
      ([Ev.generate, Ev.sleep 1, Ev.generate, Ev.sleep 1, Ev.generate],
       Except.error "2") :=
  C5_amended.2 envAllRaise "ACTIVE" "2" rfl rfl rfl (by decide)
    (Or.inl ⟨"0", rfl⟩) (Or.inl ⟨"1", rfl⟩) rfl

/-- Claim C8 is false as stated: the empty JSON object parses but is rejected
by the falsiness check with the could-not-extract error instead of being
returned unchanged. -/
theorem C8_cex :
    envEmptyObj.loads (stripFences "\x7b\x7d") = some (Json.obj []) ∧
    (analyze_lease envEmptyObj).2 = Outcome.err "AI could not extract data." :=
  ⟨rfl, rfl⟩

/-- Claim C8 (amended): a model response whose text strips to a non-empty
well-formed JSON object is returned unchanged, with no rejection for missing
fields; the concrete fenced payload strips to the same text as its unfenced
equivalent, hence parses identically.  (The empty object is instead rejected,
see the counterexample.) -/
theorem C8_amended (env : PipeEnv) (st : String) (k : Nat) (s : String)
    (fs : List (String × Json))
    (hA : env.apiKey = true) (hU : env.uploadErr = none)
    (hP : (pollLoop env.initState env.pollStates).2 = some st)
    (hF : st ≠ "FAILED")
    (hk : k < max_retries)
    (hprev : ∀ j, j < k → attemptOk env j = false)
    (hgen : env.gen k = GenOutcome.text s)
    (hload : env.loads (stripFences s) = some (Json.obj fs))
    (hne : fs ≠ []) :
    (analyze_lease env).2 =
      Outcome.ok (Json.obj fs) (create_excel_bytes env.fileName fs) ∧
    stripFences "```json\n\x7b\"risk_score\":5\x7d\n```" =
      stripFences "\x7b\"risk_score\":5\x7d" := by
  have hk3 : k < 3 := by simpa [max_retries] using hk
  have hr : List.range max_retries = [0, 1, 2] := by decide
  have hres : ∃ evs, runAttempts env (List.range max_retries) =
      (evs, Except.ok (some (Json.obj fs))) := by
    rw [hr]
    interval_cases k
    · exact ⟨_, runAttempts_hit [1, 2] hgen hload⟩
    · obtain ⟨d0, hd0⟩ := runAttempts_skip 0 [1, 2]
        (hprev 0 (by decide)) (by simp)
      exact ⟨_, by rw [hd0, runAttempts_hit [2] hgen hload]⟩
    · obtain ⟨d0, hd0⟩ := runAttempts_skip 0 [1, 2]
        (hprev 0 (by decide)) (by simp)
      obtain ⟨d1, hd1⟩ := runAttempts_skip 1 [2]
        (hprev 1 (by decide)) (by simp)
      exact ⟨_, by rw [hd0, hd1, runAttempts_hit [] hgen hload]⟩
  obtain ⟨evs, hres⟩ := hres
  refine ⟨?_, by decide⟩
  rw [analyze_lease_reach hA hU hP hF]
  cases fs with
  | nil => exact absurd rfl hne
  | cons p ps => simp [extractAndCleanup, hres, deliver, Json.truthy]

/-- Witness for C8 (amended) at the concrete first-try-success run. -/
theorem C8_witness :
    (analyze_lease envFirstTryOk).2 =
      Outcome.ok (Json.obj demoFields) (create_excel_bytes "lease.pdf" demoFields) :=
  (C8_amended envFirstTryOk "ACTIVE" 0 demoPayload demoFields rfl rfl rfl
    (by decide) (by decide) (fun j hj => absurd hj (Nat.not_lt_zero j)) rfl rfl
    (by simp [demoFields])).1

/-- Claim C2 (code bug): the staging step writes the transient local artifact
but no execution path of the pipeline ever removes it — shown here for every
environment, and in particular for a completed successful run. -/
theorem C2_no_local_cleanup :
    (∀ env : PipeEnv, (analyze_lease env).1.filter isTempRemove = []) ∧
    Ev.tempWrite "temp_upload.pdf" ∈ (analyze_lease envFirstTryOk).1 ∧
    (analyze_lease envFirstTryOk).2 =
      Outcome.ok (Json.obj demoFields) (create_excel_bytes "lease.pdf" demoFields) :=
  ⟨analyze_no_tempRemove, by decide, rfl⟩

/-- Claim C6: whenever `check_access` does not return the OK status (unknown
code, deactivated, limit reached, or store unavailable), the front-end flow
never issues an upload call — the pipeline is not invoked. -/
theorem C6_no_upload_when_denied (env : UiEnv) (rows : UsageRows)
    (h : (check_access env.store env.password).1 ≠ "OK") :
    Ev.upload ∉ (uiFlow env rows).1 := by
  unfold uiFlow
  by_cases hp : env.password = ""
  · simp [hp]
  · simp [hp, h]

/-- Witness for C6: the store is unreachable, so the round emits no events at
all. -/
theorem C6_witness : Ev.upload ∉ (uiFlow uiDenied rowsDemo).1 :=
  C6_no_upload_when_denied uiDenied rowsDemo (by decide)

theorem increment_usage_writes (conn : Bool) (rows : UsageRows) (code : String) :
    (increment_usage conn rows code).2 = [] ∨
    (increment_usage conn rows code).2 = [Ev.storeWrite code] := by
  unfold increment_usage
  split
  · exact Or.inl rfl
  · split
    · exact Or.inr rfl
    · exact Or.inl rfl

/-- Claim C7: at most one quota-store write happens per interactive round; a
failed pipeline run leaves the store untouched (and writes nothing); the
pipeline itself performs no store writes on any path; and a performed
increment changes the used count of the client by exactly 1. -/
theorem C7_usage_increment :
    (∀ (uenv : UiEnv) (rows : UsageRows),
      ((uiFlow uenv rows).1.filter isStoreWrite).length ≤ 1) ∧
    (∀ (uenv : UiEnv) (rows : UsageRows) (m : String),
      (analyze_lease uenv.pipe).2 = Outcome.err m →
      (uiFlow uenv rows).2 = rows ∧ (uiFlow uenv rows).1.filter isStoreWrite = []) ∧
    (∀ penv : PipeEnv, (analyze_lease penv).1.filter isStoreWrite = []) ∧
    (∀ (code : String) (rows rows2 : UsageRows), incRows code rows = some rows2 →
      ∃ c n, usedOf rows code = some c ∧ pyIntCell c = some n ∧
        usedOf rows2 code = some (Cell.intV (n + 1))) := by
  refine ⟨?_, ?_, analyze_no_storeWrite, incRows_spec⟩
  · intro uenv rows
    by_cases hp : uenv.password = ""
    · simp [uiFlow, hp]
    · by_cases hok : (check_access uenv.store uenv.password).1 = "OK"
      · cases hl : uenv.legalAccepted with
        | false => simp [uiFlow, hp, hok, hl]
        | true =>
          cases hf : uenv.fileUploaded <;> cases hr : uenv.runClicked <;>
            simp only [uiFlow, hp, hok, hl, hf, hr] <;> try simp
          cases ho : (analyze_lease uenv.pipe).2 with
          | ok d rep =>
            rcases increment_usage_writes uenv.store.connected rows
                uenv.password with hw | hw <;>
              simp [hp, ho, hw, List.filter_append, analyze_no_storeWrite,
                isStoreWrite]
          | err m => simp [hp, ho, analyze_no_storeWrite]
          | hang => simp [hp, ho, analyze_no_storeWrite]
      · simp [uiFlow, hp, hok]
  · intro uenv rows m herr
    by_cases hp : uenv.password = ""
    · simp [uiFlow, hp]
    · by_cases hok : (check_access uenv.store uenv.password).1 = "OK"
      · cases hl : uenv.legalAccepted with
        | false => simp [uiFlow, hp, hok, hl]
        | true =>
          cases hf : uenv.fileUploaded <;> cases hr : uenv.runClicked <;>
            simp [uiFlow, hp, hok, hl, hf, hr, herr, analyze_no_storeWrite]
      · simp [uiFlow, hp, hok]

/-- Witness for C7: a successful round writes at most once, a failed round
leaves the rows unchanged, and the concrete increment takes DEMO from 2 to 3. -/
theorem C7_witness :
    ((uiFlow uiOkRun rowsDemo).1.filter isStoreWrite).length ≤ 1 ∧
    (uiFlow uiFailedRun rowsDemo).2 = rowsDemo ∧
    (∃ c n, usedOf rowsDemo "DEMO" = some c ∧ pyIntCell c = some n ∧
      usedOf [("DEMO", Cell.intV 3)] "DEMO" = some (Cell.intV (n + 1))) :=
  ⟨C7_usage_increment.1 uiOkRun rowsDemo,
   (C7_usage_increment.2.1 uiFailedRun rowsDemo "API Key Missing" rfl).1,
   C7_usage_increment.2.2.2 "DEMO" rowsDemo [("DEMO", Cell.intV 3)] rfl⟩
